import Mathlib

/-!
Verification of the attribute-configuration and resolution layer of
`src/apollo-router/src/plugins/telemetry/config_new/attributes.rs`.

Modelling conventions:
* `serde_json::Value` is modelled by `JsonValue` (no floating point variant:
  no verified property concerns floats).
* `serde_json::Map` and `std::collections::HashMap` are modelled as
  association lists (`List (String × _)`); JSON objects have distinct keys,
  which the theorems assume through `Nodup` hypotheses where relevant.
* Panicking code (`todo!()`) is modelled by the `Except.error` branch of
  resolver results; all non-panicking source paths produce `Except.ok`.
* Ambient state read by the extraction code (span baggage, the process
  environment, the current trace id) is modelled as an explicit `Ambient`
  component of each event, since the source only ever reads it.
-/

namespace RouterSpec

/-- Model of `serde_json::Value` (configuration values). The floating-point
variant is omitted: no claim under verification involves float values. -/
inductive JsonValue where
  | null
  | bool (b : Bool)
  | int (n : Int)
  | str (s : String)
  | arr (xs : List JsonValue)
  | obj (fields : List (String × JsonValue))

/-- Modelled from the spec: `AttributeValue` lives in
`src/apollo-router/src/plugins/telemetry/config.rs`, which is not among the
sources. Spec section 2 describes it as "a small closed variant (string,
signed/unsigned integer, boolean, floating point)". The source resolve paths
construct `String`, `I64` and `U128` values; the floating-point variant is
omitted because no claim concerns it. -/
inductive AttributeValue where
  | string (s : String)
  | i64 (i : Int)
  | u128 (n : Nat)
  | bool (b : Bool)
deriving DecidableEq

/-- Modelled from the spec: deserialization of an `AttributeValue`
(`Deserialize` impl lives outside the sources): a JSON scalar becomes the
corresponding variant; structured values are rejected. -/
def attributeValueFromJson : JsonValue → Option AttributeValue
  | .str s => some (.string s)
  | .int n => some (.i64 n)
  | .bool b => some (.bool b)
  | _ => none

/-- Modelled from the spec: `AttributeValue::try_from(serde_json::Value)`
(conversion lives outside the sources): scalar JSON output of the body-path
query converts, structured output fails. -/
def attributeValueTryFrom : JsonValue → Option AttributeValue :=
  attributeValueFromJson

/-- Model of `Result::ok()`: forget the error of an `Except`. -/
def resultOk : Except ε α → Option α
  | .ok a => some a
  | .error _ => none

/-- `Extendable<Att, Ext>`: one typed attribute set plus a mapping from
custom keys to custom rules (the `HashMap` is modelled as an association
list). -/
structure Extendable (Att Ext : Type) where
  attributes : Att
  custom : List (String × Ext)

/-- Deserialization errors of the typed attribute set
(`serde`'s strict structural validation with `deny_unknown_fields`). -/
inductive DeError where
  | unknownField (key : String)
  | typeMismatch (key : String)
deriving DecidableEq

/-- The classification loop of `ExtendableVisitor::visit_map`: each key's
value is first tried as a custom (`Ext`) rule; on success it is stored in the
custom mapping, on failure the key/value pair is stashed into the pending
`attributes` object. Both maps are modelled as association lists in input
order. -/
def classifyEntries {Ext : Type} (extParse : JsonValue → Option Ext) :
    List (String × JsonValue) → List (String × JsonValue) × List (String × Ext)
  | [] => ([], [])
  | (k, v) :: rest =>
    let r := classifyEntries extParse rest
    match extParse v with
    | some e => (r.1, (k, e) :: r.2)
    | none => ((k, v) :: r.1, r.2)

/-- `Extendable::deserialize` (`ExtendableVisitor::visit_map`): classify every
entry, then parse the pending object strictly as the typed attribute set. -/
def extendableDeserialize {Att Ext : Type} (extParse : JsonValue → Option Ext)
    (attParse : List (String × JsonValue) → Except DeError Att)
    (input : List (String × JsonValue)) : Except DeError (Extendable Att Ext) :=
  let r := classifyEntries extParse input
  (attParse r.1).map fun a => { attributes := a, custom := r.2 }

/-- `OperationName`: formatting of a GraphQL operation name
(`string` = raw, `hash` = hash, the latter unimplemented in the source). -/
inductive OperationName where
  | string
  | hash
deriving DecidableEq

/-- `Query`: formatting of a GraphQL query (only the raw form exists). -/
inductive Query where
  | string
deriving DecidableEq

/-- `OperationKind`: formatting of a GraphQL operation kind. -/
inductive OperationKind where
  | string
deriving DecidableEq

/-- `SupergraphCustomAttribute`: the federated-query stage's untagged union of
custom attribute rules. Constructor arguments mirror the source fields in
order (`redact` is `#[serde(skip)]` on every variant except `Query`). -/
inductive SupergraphCustomAttribute where
  | operationName (operation_name : OperationName) (redact : Option String)
      (default : Option String)
  | operationKind (operation_kind : OperationKind) (redact : Option String)
  | query (query : Query) (redact : Option String) (default : Option String)
  | queryVariable (query_variable : String) (redact : Option String)
      (default : Option AttributeValue)
  | requestHeader (request_header : String) (redact : Option String)
      (default : Option AttributeValue)
  | responseHeader (response_header : String) (redact : Option String)
      (default : Option AttributeValue)
  | requestContext (request_context : String) (redact : Option String)
      (default : Option AttributeValue)
  | responseContext (response_context : String) (redact : Option String)
      (default : Option AttributeValue)
  | baggage (baggage : String) (redact : Option String)
      (default : Option AttributeValue)
  | env (env : String) (redact : Option String) (default : Option String)
deriving DecidableEq

/-- serde's parse of an `Option<bool>` field value: `null` is `None`, a
boolean is `Some`, anything else is a type error. -/
def parseOptBool : JsonValue → Option (Option Bool)
  | .null => some none
  | .bool b => some (some b)
  | _ => none

/-- serde's parse of an `Option<String>` field value. -/
def parseOptString : JsonValue → Option (Option String)
  | .null => some none
  | .str s => some (some s)
  | _ => none

/-- serde's parse of an `Option<AttributeValue>` field value. -/
def parseOptAttributeValue : JsonValue → Option (Option AttributeValue)
  | .null => some none
  | v => (attributeValueFromJson v).map some

/-- serde's parse of a `String` field value. -/
def parseStringField : JsonValue → Option String
  | .str s => some s
  | _ => none

/-- Parse of the `OperationName` enum (`rename_all = "snake_case"`). -/
def parseOperationName : JsonValue → Option OperationName
  | .str "string" => some .string
  | .str "hash" => some .hash
  | _ => none

/-- Parse of the `Query` enum. -/
def parseQueryEnum : JsonValue → Option Query
  | .str "string" => some .string
  | _ => none

/-- Parse of the `OperationKind` enum. -/
def parseOperationKindEnum : JsonValue → Option OperationKind
  | .str "string" => some .string
  | _ => none

/-- The fields of a JSON object (a non-object fails every struct variant). -/
def objFields : JsonValue → Option (List (String × JsonValue))
  | .obj fs => some fs
  | _ => none

/-- Field access in a JSON object. -/
def getField (fs : List (String × JsonValue)) (name : String) : Option JsonValue :=
  List.lookup name fs

/-- No duplicate keys (serde rejects duplicate fields of a struct). -/
def keysNodup : List String → Bool
  | [] => true
  | k :: rest => (!rest.contains k) && keysNodup rest

/-- Struct-variant admission: every present key is one of the variant's
(non-skipped) field names and no key repeats (`deny_unknown_fields`). -/
def keysOk (fs : List (String × JsonValue)) (allowed : List String) : Bool :=
  (fs.map Prod.fst).all (fun k => allowed.contains k) && keysNodup (fs.map Prod.fst)

/-- Parse of an optional struct field: an absent field is `None`. -/
def optField {α : Type} (fs : List (String × JsonValue)) (name : String)
    (p : JsonValue → Option (Option α)) : Option (Option α) :=
  match getField fs name with
  | none => some none
  | some v => p v

/-- The `OperationName` variant matcher of the untagged union. -/
def sgMatchOperationName (fs : List (String × JsonValue)) :
    Option SupergraphCustomAttribute := do
  guard (keysOk fs ["operation_name", "default"])
  let onm ← parseOperationName (← getField fs "operation_name")
  let d ← optField fs "default" parseOptString
  pure (.operationName onm none d)

/-- The `OperationKind` variant matcher. -/
def sgMatchOperationKind (fs : List (String × JsonValue)) :
    Option SupergraphCustomAttribute := do
  guard (keysOk fs ["operation_kind"])
  let okd ← parseOperationKindEnum (← getField fs "operation_kind")
  pure (.operationKind okd none)

/-- The `Query` variant matcher (its `redact` field is not skipped). -/
def sgMatchQuery (fs : List (String × JsonValue)) :
    Option SupergraphCustomAttribute := do
  guard (keysOk fs ["query", "redact", "default"])
  let q ← parseQueryEnum (← getField fs "query")
  let r ← optField fs "redact" parseOptString
  let d ← optField fs "default" parseOptString
  pure (.query q r d)

/-- The `QueryVariable` variant matcher. -/
def sgMatchQueryVariable (fs : List (String × JsonValue)) :
    Option SupergraphCustomAttribute := do
  guard (keysOk fs ["query_variable", "default"])
  let qv ← parseStringField (← getField fs "query_variable")
  let d ← optField fs "default" parseOptAttributeValue
  pure (.queryVariable qv none d)

/-- The `RequestHeader` variant matcher. -/
def sgMatchRequestHeader (fs : List (String × JsonValue)) :
    Option SupergraphCustomAttribute := do
  guard (keysOk fs ["request_header", "default"])
  let h ← parseStringField (← getField fs "request_header")
  let d ← optField fs "default" parseOptAttributeValue
  pure (.requestHeader h none d)

/-- The `ResponseHeader` variant matcher. -/
def sgMatchResponseHeader (fs : List (String × JsonValue)) :
    Option SupergraphCustomAttribute := do
  guard (keysOk fs ["response_header", "default"])
  let h ← parseStringField (← getField fs "response_header")
  let d ← optField fs "default" parseOptAttributeValue
  pure (.responseHeader h none d)

/-- The `RequestContext` variant matcher. -/
def sgMatchRequestContext (fs : List (String × JsonValue)) :
    Option SupergraphCustomAttribute := do
  guard (keysOk fs ["request_context", "default"])
  let c ← parseStringField (← getField fs "request_context")
  let d ← optField fs "default" parseOptAttributeValue
  pure (.requestContext c none d)

/-- The `ResponseContext` variant matcher. -/
def sgMatchResponseContext (fs : List (String × JsonValue)) :
    Option SupergraphCustomAttribute := do
  guard (keysOk fs ["response_context", "default"])
  let c ← parseStringField (← getField fs "response_context")
  let d ← optField fs "default" parseOptAttributeValue
  pure (.responseContext c none d)

/-- The `Baggage` variant matcher. -/
def sgMatchBaggage (fs : List (String × JsonValue)) :
    Option SupergraphCustomAttribute := do
  guard (keysOk fs ["baggage", "default"])
  let b ← parseStringField (← getField fs "baggage")
  let d ← optField fs "default" parseOptAttributeValue
  pure (.baggage b none d)

/-- The `Env` variant matcher. -/
def sgMatchEnv (fs : List (String × JsonValue)) :
    Option SupergraphCustomAttribute := do
  guard (keysOk fs ["env", "default"])
  let e ← parseStringField (← getField fs "env")
  let d ← optField fs "default" parseOptString
  pure (.env e none d)

/-- serde's untagged deserialization of `SupergraphCustomAttribute`: variant
matchers are tried in declaration order, the first success wins. -/
def extParseSg (v : JsonValue) : Option SupergraphCustomAttribute :=
  match objFields v with
  | none => none
  | some fs =>
    sgMatchOperationName fs <|> sgMatchOperationKind fs <|> sgMatchQuery fs <|>
      sgMatchQueryVariable fs <|> sgMatchRequestHeader fs <|>
      sgMatchResponseHeader fs <|> sgMatchRequestContext fs <|>
      sgMatchResponseContext fs <|> sgMatchBaggage fs <|> sgMatchEnv fs

/-- `SupergraphAttributes`: the federated-query stage's typed attribute set
(one `Option<bool>` toggle per semantic-convention name). -/
structure SupergraphAttributes where
  graphql_document : Option Bool := none
  graphql_operation_name : Option Bool := none
  graphql_operation_type : Option Bool := none
deriving DecidableEq

/-- The serde-renamed field names of `SupergraphAttributes`. -/
def sgAttNames : List String :=
  ["graphql.document", "graphql.operation.name", "graphql.operation.type"]

/-- The field table of `SupergraphAttributes`: a recognized serde name maps
to the setter of its `Option<bool>` toggle; an unrecognized name maps to
nothing. -/
def sgSetter (k : String) :
    Option (SupergraphAttributes → Option Bool → SupergraphAttributes) :=
  if k = "graphql.document" then
    some fun a b => { a with graphql_document := b }
  else if k = "graphql.operation.name" then
    some fun a b => { a with graphql_operation_name := b }
  else if k = "graphql.operation.type" then
    some fun a b => { a with graphql_operation_type := b }
  else none

/-- serde's strict struct deserialization of `SupergraphAttributes`
(`deny_unknown_fields`, all fields defaulted): entries are consumed in
order; an unrecognized key or an ill-typed value aborts with an error
naming the key. -/
def sgAttParseAux (acc : SupergraphAttributes) :
    List (String × JsonValue) → Except DeError SupergraphAttributes
  | [] => .ok acc
  | (k, v) :: rest =>
    match sgSetter k with
    | some set =>
      match parseOptBool v with
      | some b => sgAttParseAux (set acc b) rest
      | none => .error (.typeMismatch k)
    | none => .error (.unknownField k)

/-- `SupergraphAttributes::deserialize` on the pending object. -/
def sgAttParse (pending : List (String × JsonValue)) :
    Except DeError SupergraphAttributes :=
  sgAttParseAux {} pending

/-- Deserialization of `Extendable<SupergraphAttributes,
SupergraphCustomAttribute>`. -/
def deserializeSupergraph :
    List (String × JsonValue) →
      Except DeError (Extendable SupergraphAttributes SupergraphCustomAttribute) :=
  extendableDeserialize extParseSg sgAttParse

/-- HTTP headers: name to value; a `none` value models a header whose bytes
fail `to_str()` (non-visible-ASCII). -/
def Headers : Type := List (String × Option String)

/-- Per-request context store: a stored entry either yields its value or
fails deserialization (`Context::get` returns `Result<Option<_>>`). -/
def Context : Type := List (String × Except Unit AttributeValue)

/-- `Context::get(key)`: `Ok(None)` for an absent key. -/
def contextGet (ctx : Context) (k : String) : Except Unit (Option AttributeValue) :=
  match List.lookup k ctx with
  | none => .ok none
  | some (.ok v) => .ok (some v)
  | some (.error _) => .error ()

/-- `context.get(key).ok().flatten()`. -/
def contextOkFlatten (ctx : Context) (k : String) : Option AttributeValue :=
  (resultOk (contextGet ctx k)).join

/-- The ambient trace id (`TraceId`), with its two formattings. -/
structure TraceIdValue where
  hexString : String
  u128 : Nat

/-- Ambient state read by extraction: span baggage, the process environment
and the current trace id (`TraceId::maybe_new()` is `none` with no active
trace). -/
structure Ambient where
  baggage : List (String × AttributeValue) := []
  env : List (String × String) := []
  traceId : Option TraceIdValue := none

/-- The HTTP request value object of the edge-facing (router) stage:
headers, method, URI components and protocol version. `version` carries the
source's `format!("{:?}", version)` rendering; `uriFull` carries
`uri().to_string()`. -/
structure HttpRequestModel where
  headers : Headers := []
  method : String := "GET"
  uriHost : Option String := none
  uriPort : Option String := none
  uriPath : String := "/"
  uriQuery : Option String := none
  uriScheme : Option String := none
  uriFull : String := "/"
  version : String := "HTTP/1.1"

/-- The HTTP response value object: headers and the rendered status code. -/
structure HttpResponseModel where
  headers : Headers := []
  status : String := "200 OK"

/-- `router::Request`. -/
structure RouterRequest where
  router_request : HttpRequestModel := {}
  context : Context := []
  ambient : Ambient := {}

/-- `router::Response`. -/
structure RouterResponse where
  response : HttpResponseModel := {}
  context : Context := []
  ambient : Ambient := {}

/-- `TraceIdFormat`. -/
inductive TraceIdFormat where
  | openTelemetry
  | datadog
deriving DecidableEq

/-- `RouterCustomAttribute`: the edge-facing stage's untagged union of
custom attribute rules. -/
inductive RouterCustomAttribute where
  | requestHeader (request_header : String) (redact : Option String)
      (default : Option AttributeValue)
  | responseHeader (response_header : String) (redact : Option String)
      (default : Option AttributeValue)
  | traceId (trace_id : TraceIdFormat)
  | responseContext (response_context : String) (redact : Option String)
      (default : Option AttributeValue)
  | baggage (baggage : String) (redact : Option String)
      (default : Option AttributeValue)
  | env (env : String) (redact : Option String) (default : Option String)
deriving DecidableEq

/-- Resolver result: `Except.error` models a panic (`todo!()` in the
source); every non-panicking path is `Except.ok` of the extracted
`Option<AttributeValue>`. -/
def Resolved : Type := Except String (Option AttributeValue)

/-- `headers().get(name).and_then(|h|
Some(AttributeValue::String(h.to_str().ok()?.to_string())))`. -/
def headerAttr (hs : Headers) (name : String) : Option AttributeValue :=
  (List.lookup name hs).bind fun hv => hv.map AttributeValue.string

/-- `GetAttribute::on_request` for `RouterCustomAttribute`: variants related
to responses fall through to `None`. -/
def routerCustomOnRequest : RouterCustomAttribute → RouterRequest → Resolved
  | .requestHeader h _ d, req =>
    .ok ((headerAttr req.router_request.headers h).orElse fun _ => d)
  | .env e _ d, req =>
    .ok (((List.lookup e req.ambient.env).map AttributeValue.string).orElse
      fun _ => d.map AttributeValue.string)
  | .traceId fmt, req =>
    .ok (req.ambient.traceId.map fun t =>
      match fmt with
      | .openTelemetry => .string t.hexString
      | .datadog => .u128 t.u128)
  | .baggage b _ d, req =>
    .ok (match List.lookup b req.ambient.baggage with
      | some bv => some bv
      | none => d)
  | _, _ => .ok none

/-- `GetAttribute::on_response` for `RouterCustomAttribute`. -/
def routerCustomOnResponse : RouterCustomAttribute → RouterResponse → Resolved
  | .responseHeader h _ d, resp =>
    .ok ((headerAttr resp.response.headers h).orElse fun _ => d)
  | .responseContext c _ d, resp =>
    .ok ((contextOkFlatten resp.context c).orElse fun _ => d)
  | .baggage b _ d, resp =>
    .ok (match List.lookup b resp.ambient.baggage with
      | some bv => some bv
      | none => d)
  | _, _ => .ok none

/-- The context keys `OPERATION_NAME`/`OPERATION_KIND` come from
`crate::context`, which is outside the sources; modelled from the spec as
opaque key constants ("parsed GraphQL operation metadata from context"). -/
def OPERATION_NAME : String := "operation_name"

/-- See `OPERATION_NAME`. -/
def OPERATION_KIND : String := "operation_kind"

/-- `serde_json::to_string` on a variable value (simplified encoding: no
string escaping; only totality and `Some`-ness matter to the claims). -/
def jsonEncode : JsonValue → String
  | .null => "null"
  | .bool true => "true"
  | .bool false => "false"
  | .int n => toString n
  | .str s => "\"" ++ s ++ "\""
  | .arr xs => "[" ++ String.intercalate "," (xs.attach.map fun x => jsonEncode x.1) ++ "]"
  | .obj fs =>
    "\x7b" ++
      String.intercalate ","
        (fs.attach.map fun f => "\"" ++ f.1.1 ++ "\":" ++ jsonEncode f.1.2) ++
      "\x7d"
decreasing_by
  all_goals simp_wf
  · have h := List.sizeOf_lt_of_mem x.2
    omega
  · have h := List.sizeOf_lt_of_mem f.2
    obtain ⟨⟨a, b⟩, hf⟩ := f
    simp only [Prod.mk.sizeOf_spec] at h
    show sizeOf b < 1 + sizeOf fs
    omega

/-- The GraphQL request body: operation name and variables (`ByteString`
variable names modelled as `String`). -/
structure GraphqlRequestBody where
  operation_name : Option String := none
  variables' : List (String × JsonValue) := []

/-- An `http::Request<graphql::Request>`: headers plus GraphQL body. -/
structure GraphqlHttpRequest where
  headers : Headers := []
  body : GraphqlRequestBody := {}

/-- `supergraph::Request`. -/
structure SupergraphRequest where
  supergraph_request : GraphqlHttpRequest := {}
  context : Context := []
  ambient : Ambient := {}

/-- `supergraph::Response`. -/
structure SupergraphResponse where
  response : HttpResponseModel := {}
  context : Context := []
  ambient : Ambient := {}

/-- `GetAttribute::on_request` for `SupergraphCustomAttribute`. The
`OperationName::Hash` arm is `todo!()` in the source and is modelled as the
panic branch. -/
def supergraphCustomOnRequest :
    SupergraphCustomAttribute → SupergraphRequest → Resolved
  | .operationName fmt _ d, req =>
    let op_name := contextOkFlatten req.context OPERATION_NAME
    match fmt with
    | .string => .ok (op_name.orElse fun _ => d.map AttributeValue.string)
    | .hash => .error "not yet implemented"
  | .operationKind _ _, req => .ok (contextOkFlatten req.context OPERATION_KIND)
  | .queryVariable qv _ d, req =>
    .ok ((((List.lookup qv req.supergraph_request.body.variables').bind
      fun v => some (jsonEncode v)).map AttributeValue.string).orElse fun _ => d)
  | .requestHeader h _ d, req =>
    .ok ((headerAttr req.supergraph_request.headers h).orElse fun _ => d)
  | .requestContext c _ d, req =>
    .ok ((contextOkFlatten req.context c).orElse fun _ => d)
  | .baggage b _ d, req =>
    .ok (match List.lookup b req.ambient.baggage with
      | some bv => some bv
      | none => d)
  | .env e _ d, req =>
    .ok (((List.lookup e req.ambient.env).map AttributeValue.string).orElse
      fun _ => d.map AttributeValue.string)
  | _, _ => .ok none

/-- `GetAttribute::on_response` for `SupergraphCustomAttribute`: variants
related to requests fall through to `None`. -/
def supergraphCustomOnResponse :
    SupergraphCustomAttribute → SupergraphResponse → Resolved
  | .responseHeader h _ d, resp =>
    .ok ((headerAttr resp.response.headers h).orElse fun _ => d)
  | .responseContext c _ d, resp =>
    .ok ((contextOkFlatten resp.context c).orElse fun _ => d)
  | _, _ => .ok none

/-- `JSONQuery`: a compiled body-path query; its evaluator is an external
collaborator (out of scope per the spec), so a compiled query is modelled
as the evaluation function itself, `Err` modelling a failed evaluation. -/
def JSONQuery : Type := JsonValue → Except Unit (Option JsonValue)

/-- `SubgraphCustomAttribute`: the downstream-service stage's untagged union
of custom attribute rules. -/
inductive SubgraphCustomAttribute where
  | subgraphOperationName (subgraph_operation_name : OperationName)
      (redact : Option String) (default : Option String)
  | subgraphOperationKind (subgraph_operation_kind : OperationKind)
  | subgraphQuery (subgraph_query : Query) (redact : Option String)
      (default : Option String)
  | subgraphQueryVariable (subgraph_query_variable : String)
      (redact : Option String) (default : Option AttributeValue)
  | subgraphResponseBody (subgraph_response_body : JSONQuery)
      (redact : Option String) (default : Option AttributeValue)
  | subgraphRequestHeader (subgraph_request_header : String)
      (redact : Option String) (default : Option AttributeValue)
  | subgraphResponseHeader (subgraph_response_header : String)
      (redact : Option String) (default : Option AttributeValue)
  | supergraphOperationName (supergraph_operation_name : OperationName)
      (redact : Option String) (default : Option String)
  | supergraphOperationKind (supergraph_operation_kind : OperationKind)
  | supergraphQueryVariable (supergraph_query_variable : String)
      (redact : Option String) (default : Option AttributeValue)
  | supergraphRequestHeader (supergraph_request_header : String)
      (redact : Option String) (default : Option AttributeValue)
  | supergraphResponseHeader (supergraph_response_header : String)
      (redact : Option String) (default : Option AttributeValue)
  | requestContext (request_context : String) (redact : Option String)
      (default : Option AttributeValue)
  | responseContext (response_context : String) (redact : Option String)
      (default : Option AttributeValue)
  | baggage (baggage : String) (redact : Option String)
      (default : Option AttributeValue)
  | env (env : String) (redact : Option String) (default : Option String)

/-- `subgraph::Request`: the subgraph-bound and originating supergraph
requests, the context, and the operation kind
(`operation_kind.as_apollo_operation_type().to_string()` is carried
pre-rendered). -/
structure SubgraphRequest where
  subgraph_request : GraphqlHttpRequest := {}
  supergraph_request : GraphqlHttpRequest := {}
  context : Context := []
  operation_kind_apollo : String := "query"
  ambient : Ambient := {}

/-- An `http::Response<graphql::Response>`: headers plus the parsed body. -/
structure SubgraphHttpResponse where
  headers : Headers := []
  body : JsonValue := .null

/-- `subgraph::Response`. -/
structure SubgraphResponse where
  response : SubgraphHttpResponse := {}
  context : Context := []
  ambient : Ambient := {}

/-- `GetAttribute::on_request` for `SubgraphCustomAttribute`; the two
`OperationName::Hash` arms are `todo!()` in the source. -/
def subgraphCustomOnRequest :
    SubgraphCustomAttribute → SubgraphRequest → Resolved
  | .subgraphOperationName fmt _ d, req =>
    let op_name := req.subgraph_request.body.operation_name
    match fmt with
    | .string =>
      .ok ((op_name.map AttributeValue.string).orElse
        fun _ => d.map AttributeValue.string)
    | .hash => .error "not yet implemented"
  | .supergraphOperationName fmt _ d, req =>
    let op_name := contextOkFlatten req.context OPERATION_NAME
    match fmt with
    | .string => .ok (op_name.orElse fun _ => d.map AttributeValue.string)
    | .hash => .error "not yet implemented"
  | .subgraphOperationKind _, req =>
    .ok (some (.string req.operation_kind_apollo))
  | .supergraphOperationKind _, req =>
    .ok (contextOkFlatten req.context OPERATION_KIND)
  | .subgraphQueryVariable qv _ d, req =>
    .ok ((((List.lookup qv req.subgraph_request.body.variables').bind
      fun v => some (jsonEncode v)).map AttributeValue.string).orElse fun _ => d)
  | .supergraphQueryVariable qv _ d, req =>
    .ok ((((List.lookup qv req.supergraph_request.body.variables').bind
      fun v => some (jsonEncode v)).map AttributeValue.string).orElse fun _ => d)
  | .subgraphRequestHeader h _ d, req =>
    .ok ((headerAttr req.subgraph_request.headers h).orElse fun _ => d)
  | .supergraphRequestHeader h _ d, req =>
    .ok ((headerAttr req.supergraph_request.headers h).orElse fun _ => d)
  | .requestContext c _ d, req =>
    .ok ((contextOkFlatten req.context c).orElse fun _ => d)
  | .baggage b _ d, req =>
    .ok (match List.lookup b req.ambient.baggage with
      | some bv => some bv
      | none => d)
  | .env e _ d, req =>
    .ok (((List.lookup e req.ambient.env).map AttributeValue.string).orElse
      fun _ => d.map AttributeValue.string)
  | _, _ => .ok none

/-- `GetAttribute::on_response` for `SubgraphCustomAttribute`. In the
`SubgraphResponseBody` arm the source's
`.execute(body).ok().flatten()?` returns `None` early — before the
`or_else(default)` — whenever the body-path query yields nothing. -/
def subgraphCustomOnResponse :
    SubgraphCustomAttribute → SubgraphResponse → Resolved
  | .subgraphResponseHeader h _ d, resp =>
    .ok ((headerAttr resp.response.headers h).orElse fun _ => d)
  | .subgraphResponseBody q _ d, resp =>
    match (resultOk (q resp.response.body)).join with
    | none => .ok none
    | some output => .ok ((attributeValueTryFrom output).orElse fun _ => d)
  | .responseContext c _ d, resp =>
    .ok ((contextOkFlatten resp.context c).orElse fun _ => d)
  | _, _ => .ok none

/-- `HttpCommonAttributes`: common HTTP toggles (one `Option<bool>` per
semantic-convention name, serde-renamed to the dotted names). -/
structure HttpCommonAttributes where
  error_type : Option Bool := none
  http_request_body_size : Option Bool := none
  http_request_method : Option Bool := none
  http_request_method_original : Option Bool := none
  http_response_body_size : Option Bool := none
  http_response_status_code : Option Bool := none
  network_protocol_name : Option Bool := none
  network_protocol_version : Option Bool := none
  network_transport : Option Bool := none
  network_type : Option Bool := none
  user_agent_original : Option Bool := none
deriving DecidableEq

/-- `HttpServerAttributes` (the `skip`-serialized fields are kept: they are
part of the struct even though never parsed). -/
structure HttpServerAttributes where
  client_address : Option Bool := none
  client_port : Option Bool := none
  http_route : Option Bool := none
  network_local_address : Option Bool := none
  network_local_port : Option Bool := none
  network_peer_address : Option Bool := none
  network_peer_port : Option Bool := none
  server_address : Option Bool := none
  server_port : Option Bool := none
  url_path : Option Bool := none
  url_query : Option Bool := none
  url_scheme : Option Bool := none
deriving DecidableEq

/-- `RouterAttributes`: the edge-facing typed set, flattening the common and
server HTTP attribute sets. -/
structure RouterAttributes where
  common : HttpCommonAttributes := {}
  server : HttpServerAttributes := {}
deriving DecidableEq

/-- The mapping produced by `resolve_all` (`HashMap<Key, AttributeValue>`
modelled as an association list). -/
def AttrMap : Type := List (String × AttributeValue)

/-- `HashMap::insert`: overwrite the key's entry or append a new one. -/
def upsert {α : Type} : List (String × α) → String → α → List (String × α)
  | [], k, v => [(k, v)]
  | (k₁, v₁) :: rest, k, v =>
    if k₁ = k then (k, v) :: rest else (k₁, v₁) :: upsert rest k v

/-- `HttpCommonAttributes::on_request`: each attribute is inserted under its
`if let Some(true)` toggle guard. The source contains no arm for
`http.request.method` (nor `http.request.method.original`, `network.type`):
those toggles are never read here. -/
def httpCommonOnRequest (c : HttpCommonAttributes) (req : RouterRequest) : AttrMap :=
  let attrs : AttrMap := []
  let attrs :=
    if c.http_request_body_size = some true then
      match (List.lookup "content-length" req.router_request.headers).bind id with
      | some cl => upsert attrs "http.request.body.size" (.string cl)
      | none => attrs
    else attrs
  let attrs :=
    if c.network_protocol_name = some true then
      upsert attrs "network.protocol.name" (.string "http")
    else attrs
  let attrs :=
    if c.network_protocol_version = some true then
      upsert attrs "network.protocol.version" (.string req.router_request.version)
    else attrs
  let attrs :=
    if c.network_transport = some true then
      upsert attrs "network.transport" (.string "tcp")
    else attrs
  let attrs :=
    if c.user_agent_original = some true then
      match (List.lookup "user-agent" req.router_request.headers).bind id with
      | some ua => upsert attrs "user_agent.original" (.string ua)
      | none => attrs
    else attrs
  attrs

/-- `HttpCommonAttributes::on_response`. -/
def httpCommonOnResponse (c : HttpCommonAttributes) (resp : RouterResponse) : AttrMap :=
  let attrs : AttrMap := []
  let attrs :=
    if c.http_response_body_size = some true then
      match (List.lookup "content-length" resp.response.headers).bind id with
      | some cl => upsert attrs "http.response.body.size" (.string cl)
      | none => attrs
    else attrs
  let attrs :=
    if c.http_response_status_code = some true then
      upsert attrs "http.response.status_code" (.string resp.response.status)
    else attrs
  attrs

/-- `BoxError` modelled as its display string. -/
def BoxError : Type := String

/-- `HttpCommonAttributes::on_error`: ignores the error value and emits the
constant `error.type = 500` under the `error_type` toggle. -/
def httpCommonOnError (c : HttpCommonAttributes) (_error : BoxError) : AttrMap :=
  let attrs : AttrMap := []
  if c.error_type = some true then
    upsert attrs "error.type" (.i64 500)
  else attrs

/-- `HttpServerAttributes::on_request` (URI-component attributes). -/
def httpServerOnRequest (s : HttpServerAttributes) (req : RouterRequest) : AttrMap :=
  let attrs : AttrMap := []
  let attrs :=
    if s.http_route = some true then
      upsert attrs "http.route" (.string req.router_request.uriFull)
    else attrs
  let attrs :=
    if s.server_address = some true then
      match req.router_request.uriHost with
      | some host => upsert attrs "server.address" (.string host)
      | none => attrs
    else attrs
  let attrs :=
    if s.server_port = some true then
      match req.router_request.uriPort with
      | some port => upsert attrs "server.port" (.string port)
      | none => attrs
    else attrs
  let attrs :=
    if s.url_path = some true then
      upsert attrs "url.path" (.string req.router_request.uriPath)
    else attrs
  let attrs :=
    if s.url_query = some true then
      match req.router_request.uriQuery with
      | some query => upsert attrs "url.query" (.string query)
      | none => attrs
    else attrs
  let attrs :=
    if s.url_scheme = some true then
      match req.router_request.uriScheme with
      | some scheme => upsert attrs "url.scheme" (.string scheme)
      | none => attrs
    else attrs
  attrs

/-- `HttpServerAttributes::on_response` returns an empty map. -/
def httpServerOnResponse (_s : HttpServerAttributes) (_resp : RouterResponse) : AttrMap :=
  []

/-- `HttpServerAttributes::on_error` returns an empty map. -/
def httpServerOnError (_s : HttpServerAttributes) (_error : BoxError) : AttrMap :=
  []

/-- `RouterAttributes::on_request` delegates to `self.common` only: the
`server` attribute set is never consulted. -/
def routerAttributesOnRequest (a : RouterAttributes) (req : RouterRequest) : AttrMap :=
  httpCommonOnRequest a.common req

/-- `RouterAttributes::on_response` delegates to `self.common` only. -/
def routerAttributesOnResponse (a : RouterAttributes) (resp : RouterResponse) : AttrMap :=
  httpCommonOnResponse a.common resp

/-- `RouterAttributes::on_error` delegates to `self.common` only. -/
def routerAttributesOnError (a : RouterAttributes) (err : BoxError) : AttrMap :=
  httpCommonOnError a.common err

/-- `HashMap::extend`: insert every produced entry. -/
def extendAttrs (m : AttrMap) (adds : AttrMap) : AttrMap :=
  adds.foldl (fun acc kv => upsert acc kv.1 kv.2) m

/-- The generic `GetAttributes::on_request` for `Extendable<A, E>`: the typed
set's map, extended with `(key, value)` for every custom rule whose
`on_request` returns `Some(value)`. The trait methods of `A` and `E` are
passed as functions, as the source impl is generic over the trait bounds. -/
def extendableOnRequest {Att Ext Req : Type} (aOn : Att → Req → AttrMap)
    (eOn : Ext → Req → Option AttributeValue) (x : Extendable Att Ext)
    (r : Req) : AttrMap :=
  let attrs := aOn x.attributes r
  extendAttrs attrs
    (x.custom.filterMap fun kv => (eOn kv.2 r).map fun v => (kv.1, v))

/-- The generic `GetAttributes::on_response` for `Extendable<A, E>`. -/
def extendableOnResponse {Att Ext Resp : Type} (aOn : Att → Resp → AttrMap)
    (eOn : Ext → Resp → Option AttributeValue) (x : Extendable Att Ext)
    (r : Resp) : AttrMap :=
  let attrs := aOn x.attributes r
  extendAttrs attrs
    (x.custom.filterMap fun kv => (eOn kv.2 r).map fun v => (kv.1, v))

/-- The generic `GetAttributes::on_error` for `Extendable<A, E>`: only the
typed set participates. -/
def extendableOnError {Att Ext : Type} (aOn : Att → BoxError → AttrMap)
    (x : Extendable Att Ext) (err : BoxError) : AttrMap :=
  aOn x.attributes err

/-- `DefaultAttributeRequirementLevel`. -/
inductive DefaultAttributeRequirementLevel where
  | none
  | required
  | recommended
deriving DecidableEq

/-- One `if self.f.is_none() { self.f = Some(true) }` step of the default
populator. -/
def orTrue (o : Option Bool) : Option Bool :=
  if o.isNone then some true else o

/-- `HttpCommonAttributes::defaults_for_level` (functional rendering of the
in-place mutation; the `Recommended` arm checks `error_type` twice, exactly
as the source does). -/
def httpCommonDefaultsForLevel (c : HttpCommonAttributes)
    (requirement_level : DefaultAttributeRequirementLevel) : HttpCommonAttributes :=
  match requirement_level with
  | .required =>
    { c with
      error_type := orTrue c.error_type
      http_request_method := orTrue c.http_request_method
      http_response_status_code := orTrue c.http_response_status_code }
  | .recommended =>
    { c with
      error_type := orTrue (orTrue c.error_type)
      http_request_method := orTrue c.http_request_method
      http_response_status_code := orTrue c.http_response_status_code
      http_request_body_size := orTrue c.http_request_body_size
      http_response_body_size := orTrue c.http_response_body_size
      network_protocol_version := orTrue c.network_protocol_version
      network_type := orTrue c.network_type
      user_agent_original := orTrue c.user_agent_original }
  | .none => c

/-- The serde names of the toggles of `HttpCommonAttributes` that are
enabled (`Some(true)`) in a given state. -/
def httpCommonEnabledNames (c : HttpCommonAttributes) : List String :=
  (if c.error_type = some true then ["error.type"] else []) ++
  (if c.http_request_body_size = some true then ["http.request.body.size"] else []) ++
  (if c.http_request_method = some true then ["http.request.method"] else []) ++
  (if c.http_request_method_original = some true then ["http.request.method.original"] else []) ++
  (if c.http_response_body_size = some true then ["http.response.body.size"] else []) ++
  (if c.http_response_status_code = some true then ["http.response.status_code"] else []) ++
  (if c.network_protocol_name = some true then ["network.protocol.name"] else []) ++
  (if c.network_protocol_version = some true then ["network.protocol.version"] else []) ++
  (if c.network_transport = some true then ["network.transport"] else []) ++
  (if c.network_type = some true then ["network.type"] else []) ++
  (if c.user_agent_original = some true then ["user_agent.original"] else [])

/-- C7 — Monotonic defaults: on a blank (all-`None`) `HttpCommonAttributes`,
every toggle enabled by `defaults_for_level(Required)` is also enabled by
`defaults_for_level(Recommended)`. -/
theorem claimC7_monotonic_defaults :
    ((httpCommonEnabledNames (httpCommonDefaultsForLevel {} .required)).all
      fun n =>
        (httpCommonEnabledNames (httpCommonDefaultsForLevel {} .recommended)).contains n) =
      true := by
  decide

/-- `orTrue` is idempotent: the populator only ever turns `None` into
`Some(true)`, so a second pass finds nothing left to change. -/
theorem orTrue_orTrue (o : Option Bool) : orTrue (orTrue o) = orTrue o := by
  cases o <;> rfl

/-- C8 — Idempotent population: applying `defaults_for_level` twice with the
same level equals applying it once, for every starting state and level. -/
theorem claimC8_idempotent_population (c : HttpCommonAttributes)
    (lvl : DefaultAttributeRequirementLevel) :
    httpCommonDefaultsForLevel (httpCommonDefaultsForLevel c lvl) lvl =
      httpCommonDefaultsForLevel c lvl := by
  cases c
  cases lvl <;> simp [httpCommonDefaultsForLevel, orTrue_orTrue]

/-- C9 — Stage isolation: a `ResponseHeader` rule resolved against a request
event yields `None` (without panicking), and symmetrically a `RequestHeader`
rule resolved against a response event yields `None`, at every stage. -/
theorem claimC9_stage_isolation (h : String) (red : Option String)
    (d : Option AttributeValue) (req : RouterRequest) (resp : RouterResponse)
    (sreq : SupergraphRequest) (sresp : SupergraphResponse)
    (breq : SubgraphRequest) (bresp : SubgraphResponse) :
    routerCustomOnRequest (.responseHeader h red d) req = .ok none ∧
    routerCustomOnResponse (.requestHeader h red d) resp = .ok none ∧
    supergraphCustomOnRequest (.responseHeader h red d) sreq = .ok none ∧
    supergraphCustomOnResponse (.requestHeader h red d) sresp = .ok none ∧
    subgraphCustomOnRequest (.subgraphResponseHeader h red d) breq = .ok none ∧
    subgraphCustomOnRequest (.supergraphResponseHeader h red d) breq = .ok none ∧
    subgraphCustomOnResponse (.subgraphRequestHeader h red d) bresp = .ok none ∧
    subgraphCustomOnResponse (.supergraphRequestHeader h red d) bresp = .ok none :=
  ⟨rfl, rfl, rfl, rfl, rfl, rfl, rfl, rfl⟩

/-- C9 witness at concrete inputs. -/
theorem claimC9_stage_isolation_witness :
    routerCustomOnRequest (.responseHeader "x-a" none none) {} = .ok none ∧
    routerCustomOnResponse (.requestHeader "x-a" none none) {} = .ok none ∧
    supergraphCustomOnRequest (.responseHeader "x-a" none none) {} = .ok none ∧
    supergraphCustomOnResponse (.requestHeader "x-a" none none) {} = .ok none ∧
    subgraphCustomOnRequest (.subgraphResponseHeader "x-a" none none) {} = .ok none ∧
    subgraphCustomOnRequest (.supergraphResponseHeader "x-a" none none) {} = .ok none ∧
    subgraphCustomOnResponse (.subgraphRequestHeader "x-a" none none) {} = .ok none ∧
    subgraphCustomOnResponse (.supergraphRequestHeader "x-a" none none) {} = .ok none :=
  claimC9_stage_isolation "x-a" none none {} {} {} {} {} {}

/-- C10 — `HttpCommonAttributes::on_error` emits exactly `error.type = 500`
when the `error_type` toggle is `Some(true)` and nothing otherwise,
independently of the error value and of every other toggle. -/
theorem claimC10_on_error (c : HttpCommonAttributes) (err err' : BoxError) :
    httpCommonOnError c err =
      (if c.error_type = some true then [("error.type", AttributeValue.i64 500)] else []) ∧
    httpCommonOnError c err = httpCommonOnError c err' := by
  constructor
  · by_cases hc : c.error_type = some true <;> simp [httpCommonOnError, upsert, hc]
  · rfl

/-- C2 — evaluation at the failing input: a `SubgraphResponseBody` rule with
a configured default, resolved against a response whose body-path query
succeeds but yields nothing, returns `None` instead of the default
(the source's early `?` skips the `or_else(default)`). -/
theorem claimC2_eval :
    subgraphCustomOnResponse
      (.subgraphResponseBody (fun _ => Except.ok none) none
        (some (.string "fallback"))) {} =
      Except.ok none := rfl

/-- C4 — evaluation at the failing input: with `http.request.method` and
`url.path` toggled `Some(true)`, `RouterAttributes::on_request` emits
neither (its common set has no arm for the method; its server set — which
would emit `url.path` — is never consulted). -/
theorem claimC4_eval :
    routerAttributesOnRequest
      { common := { http_request_method := some true }
        server := { url_path := some true } }
      { router_request := { method := "GET", uriPath := "/search" } } = [] ∧
    List.lookup "url.path"
      (httpServerOnRequest { url_path := some true }
        { router_request := { method := "GET", uriPath := "/search" } }) =
      some (.string "/search") := by
  constructor
  · rfl
  · decide

/-- Whether a federated-query custom rule uses the unimplemented
`OperationName::Hash` format. -/
def sgUsesHash : SupergraphCustomAttribute → Bool
  | .operationName .hash _ _ => true
  | _ => false

/-- Whether a downstream-service custom rule uses the unimplemented
`OperationName::Hash` format. -/
def subUsesHash : SubgraphCustomAttribute → Bool
  | .subgraphOperationName .hash _ _ => true
  | .supergraphOperationName .hash _ _ => true
  | _ => false

/-- C3 — counterexample: an `OperationName` rule in its `Hash` format panics
(`todo!()` in the source, modelled as the error branch) on any request, so
resolution is not total over the `Hash` format. -/
theorem claimC3_counterexample :
    supergraphCustomOnRequest (.operationName .hash none none) {} =
      Except.error "not yet implemented" := rfl

/-- C3 (amended) — Totality of extraction: every custom rule of every
stage's union resolves every request and response event without panicking
or erroring, **except** the declared-but-unimplemented `Hash` format of the
operation-name rules, whose arms are `todo!()`. -/
theorem claimC3_total (rr : RouterCustomAttribute) (req : RouterRequest)
    (resp : RouterResponse) (sr : SupergraphCustomAttribute)
    (sreq : SupergraphRequest) (sresp : SupergraphResponse)
    (br : SubgraphCustomAttribute) (breq : SubgraphRequest)
    (bresp : SubgraphResponse) (hs : sgUsesHash sr = false)
    (hb : subUsesHash br = false) :
    (∃ o, routerCustomOnRequest rr req = .ok o) ∧
    (∃ o, routerCustomOnResponse rr resp = .ok o) ∧
    (∃ o, supergraphCustomOnRequest sr sreq = .ok o) ∧
    (∃ o, supergraphCustomOnResponse sr sresp = .ok o) ∧
    (∃ o, subgraphCustomOnRequest br breq = .ok o) ∧
    (∃ o, subgraphCustomOnResponse br bresp = .ok o) := by
  refine ⟨?_, ?_, ?_, ?_, ?_, ?_⟩
  · cases rr <;> exact ⟨_, rfl⟩
  · cases rr <;> exact ⟨_, rfl⟩
  · cases sr <;> try exact ⟨_, rfl⟩
    case operationName fmt red d =>
      cases fmt
      · exact ⟨_, rfl⟩
      · simp [sgUsesHash] at hs
  · cases sr <;> exact ⟨_, rfl⟩
  · cases br <;> try exact ⟨_, rfl⟩
    case subgraphOperationName fmt red d =>
      cases fmt
      · exact ⟨_, rfl⟩
      · simp [subUsesHash] at hb
    case supergraphOperationName fmt red d =>
      cases fmt
      · exact ⟨_, rfl⟩
      · simp [subUsesHash] at hb
  · cases br <;> try exact ⟨_, rfl⟩
    case subgraphResponseBody q red d =>
      cases hq : (resultOk (q bresp.response.body)).join with
      | none =>
        refine ⟨none, ?_⟩
        simp only [subgraphCustomOnResponse, Option.join, Function.id_def] at hq ⊢
        rw [hq]
      | some out =>
        refine ⟨(attributeValueTryFrom out).orElse fun _ => d, ?_⟩
        simp only [subgraphCustomOnResponse, Option.join, Function.id_def] at hq ⊢
        rw [hq]

/-- C3 witness: the amended totality theorem applied at concrete non-`Hash`
rules and concrete events. -/
theorem claimC3_total_witness :
    sgUsesHash (.requestHeader "x-a" none none) = false ∧
    subUsesHash (.subgraphRequestHeader "x-a" none none) = false ∧
    ((∃ o, routerCustomOnRequest (.requestHeader "x-a" none none) {} = .ok o) ∧
    (∃ o, routerCustomOnResponse (.requestHeader "x-a" none none) {} = .ok o) ∧
    (∃ o, supergraphCustomOnRequest (.requestHeader "x-a" none none) {} = .ok o) ∧
    (∃ o, supergraphCustomOnResponse (.requestHeader "x-a" none none) {} = .ok o) ∧
    (∃ o, subgraphCustomOnRequest (.subgraphRequestHeader "x-a" none none) {} = .ok o) ∧
    (∃ o, subgraphCustomOnResponse (.subgraphRequestHeader "x-a" none none) {} = .ok o)) :=
  ⟨rfl, rfl,
    claimC3_total (.requestHeader "x-a" none none) {} {}
      (.requestHeader "x-a" none none) {} {}
      (.subgraphRequestHeader "x-a" none none) {} {} rfl rfl⟩

/-- Lookup after a `HashMap::insert`. -/
theorem lookup_upsert {α : Type} (m : List (String × α)) (k k' : String) (v : α) :
    List.lookup k' (upsert m k v) = if k' = k then some v else List.lookup k' m := by
  induction m with
  | nil =>
    by_cases h : k' = k
    · subst h; simp [upsert, List.lookup]
    · simp [upsert, List.lookup, beq_false_of_ne h, h]
  | cons kv rest ih =>
    obtain ⟨k₁, v₁⟩ := kv
    by_cases h1 : k₁ = k
    · subst h1
      by_cases h2 : k' = k₁
      · subst h2; simp [upsert, List.lookup]
      · simp [upsert, List.lookup, beq_false_of_ne h2, h2]
    · by_cases h2 : k' = k₁
      · subst h2
        simp [upsert, List.lookup, h1]
      · simp [upsert, List.lookup, h1, h2, beq_false_of_ne h2, ih]

/-- A key outside a map's key set looks up to nothing. -/
theorem lookup_eq_none_of_not_mem {α : Type} (m : List (String × α)) (k : String)
    (h : k ∉ m.map Prod.fst) : List.lookup k m = none := by
  induction m with
  | nil => rfl
  | cons kv rest ih =>
    simp only [List.map_cons, List.mem_cons] at h
    push_neg at h
    simp [List.lookup, beq_false_of_ne h.1, ih h.2]

/-- Lookup after a `HashMap::extend` whose added entries have distinct keys:
an added entry wins, otherwise the base map answers. -/
theorem lookup_extendAttrs (m adds : AttrMap) (k : String)
    (hnd : (adds.map Prod.fst).Nodup) :
    List.lookup k (extendAttrs m adds) =
      (List.lookup k adds).orElse fun _ => List.lookup k m := by
  induction adds generalizing m with
  | nil => simp [extendAttrs, List.lookup, Option.orElse]
  | cons kv rest ih =>
    obtain ⟨k₀, v₀⟩ := kv
    simp only [List.map_cons, List.nodup_cons] at hnd
    have step : extendAttrs m ((k₀, v₀) :: rest) = extendAttrs (upsert m k₀ v₀) rest := rfl
    rw [step, ih _ hnd.2, lookup_upsert]
    by_cases h : k = k₀
    · subst h
      rw [lookup_eq_none_of_not_mem rest k hnd.1]
      simp [List.lookup, Option.orElse]
    · simp [List.lookup, h, beq_false_of_ne h, Option.orElse]

/-- Looking up a key in the `filter_map` of the custom rules equals resolving
the rule stored at that key (distinct custom keys). -/
theorem lookup_filterMap_resolve {Ext Req : Type}
    (eOn : Ext → Req → Option AttributeValue) (custom : List (String × Ext))
    (r : Req) (k : String) (hnd : (custom.map Prod.fst).Nodup) :
    List.lookup k (custom.filterMap fun kv => (eOn kv.2 r).map fun v => (kv.1, v)) =
      (List.lookup k custom).bind fun rule => eOn rule r := by
  induction custom with
  | nil => rfl
  | cons kv rest ih =>
    obtain ⟨k₀, e₀⟩ := kv
    simp only [List.map_cons, List.nodup_cons] at hnd
    by_cases h : k = k₀
    · subst h
      cases he : eOn e₀ r with
      | none =>
        have hrest : List.lookup k (rest.filterMap
            fun kv => (eOn kv.2 r).map fun v => (kv.1, v)) = none := by
          apply lookup_eq_none_of_not_mem
          intro hmem
          apply hnd.1
          obtain ⟨p, hp, hpk⟩ := List.mem_map.mp hmem
          obtain ⟨q, hq, hqp⟩ := List.mem_filterMap.mp hp
          cases hv : eOn q.2 r with
          | none => rw [hv] at hqp; simp at hqp
          | some v =>
            rw [hv] at hqp
            simp only [Option.map_some', Option.some.injEq] at hqp
            subst hqp
            simp only at hpk
            subst hpk
            exact List.mem_map.mpr ⟨q, hq, rfl⟩
        simp [List.filterMap_cons, he, hrest, List.lookup]
      | some v =>
        simp [List.filterMap_cons, he, List.lookup]
    · cases he : eOn e₀ r with
      | none =>
        simp [List.filterMap_cons, he, List.lookup, beq_false_of_ne h, ih hnd.2]
      | some v =>
        simp [List.filterMap_cons, he, List.lookup, beq_false_of_ne h, ih hnd.2]

/-- The keys of the custom rules' `filter_map` output form a sublist of the
custom keys. -/
theorem keys_filterMap_sublist {Ext Req : Type}
    (eOn : Ext → Req → Option AttributeValue) (custom : List (String × Ext))
    (r : Req) :
    ((custom.filterMap fun kv => (eOn kv.2 r).map fun v => (kv.1, v)).map
      Prod.fst).Sublist (custom.map Prod.fst) := by
  induction custom with
  | nil => simp
  | cons kv rest ih =>
    cases he : eOn kv.2 r with
    | none =>
      simp only [List.filterMap_cons, he, Option.map_none, List.map_cons]
      exact ih.cons _
    | some v =>
      simp only [List.filterMap_cons, he, Option.map_some, List.map_cons]
      exact ih.cons₂ _

/-- C6 — Aggregate resolution for `Extendable<A, E>`: on a request or a
response event, every key resolves to the value of the custom rule stored at
that key when that rule yields `Some`, and to the typed set's own entry
otherwise; on an error event the result is exactly the typed set's error
output, with no custom contribution. -/
theorem claimC6_aggregate_resolution {Att Ext Req Resp : Type}
    (aOnReq : Att → Req → AttrMap) (eOnReq : Ext → Req → Option AttributeValue)
    (aOnResp : Att → Resp → AttrMap) (eOnResp : Ext → Resp → Option AttributeValue)
    (aOnErr : Att → BoxError → AttrMap) (x : Extendable Att Ext) (r : Req)
    (s : Resp) (err : BoxError) (k : String)
    (hnd : (x.custom.map Prod.fst).Nodup) :
    List.lookup k (extendableOnRequest aOnReq eOnReq x r) =
      ((List.lookup k x.custom).bind fun rule => eOnReq rule r).orElse
        (fun _ => List.lookup k (aOnReq x.attributes r)) ∧
    List.lookup k (extendableOnResponse aOnResp eOnResp x s) =
      ((List.lookup k x.custom).bind fun rule => eOnResp rule s).orElse
        (fun _ => List.lookup k (aOnResp x.attributes s)) ∧
    extendableOnError aOnErr x err = aOnErr x.attributes err := by
  refine ⟨?_, ?_, rfl⟩
  · simp only [extendableOnRequest]
    rw [lookup_extendAttrs _ _ _ ((keys_filterMap_sublist eOnReq x.custom r).nodup hnd),
      lookup_filterMap_resolve _ _ _ _ hnd]
  · simp only [extendableOnResponse]
    rw [lookup_extendAttrs _ _ _ ((keys_filterMap_sublist eOnResp x.custom s).nodup hnd),
      lookup_filterMap_resolve _ _ _ _ hnd]

/-- C6 witness: the aggregate-resolution theorem applied to a concrete
schema (one typed entry, one custom rule) at a concrete key. -/
theorem claimC6_aggregate_resolution_witness :
    ((([("c", some (AttributeValue.bool true))] : List (String × Option AttributeValue)).map
      Prod.fst).Nodup) ∧
    (List.lookup "c"
      (extendableOnRequest (fun (_ : Unit) (_ : Unit) => [("t", AttributeValue.i64 1)])
        (fun (e : Option AttributeValue) (_ : Unit) => e)
        (⟨(), [("c", some (.bool true))]⟩ : Extendable Unit (Option AttributeValue)) ()) =
      ((List.lookup "c" [("c", some (AttributeValue.bool true))]).bind
        fun rule => rule).orElse
        (fun _ => List.lookup "c" [("t", AttributeValue.i64 1)]) ∧
    List.lookup "c"
      (extendableOnResponse (fun (_ : Unit) (_ : Unit) => [("t", AttributeValue.i64 1)])
        (fun (e : Option AttributeValue) (_ : Unit) => e)
        (⟨(), [("c", some (.bool true))]⟩ : Extendable Unit (Option AttributeValue)) ()) =
      ((List.lookup "c" [("c", some (AttributeValue.bool true))]).bind
        fun rule => rule).orElse
        (fun _ => List.lookup "c" [("t", AttributeValue.i64 1)]) ∧
    extendableOnError (fun (_ : Unit) (_ : BoxError) => [("t", AttributeValue.i64 1)])
      (⟨(), [("c", some (.bool true))]⟩ : Extendable Unit (Option AttributeValue)) "boom" =
      [("t", AttributeValue.i64 1)]) :=
  ⟨by decide,
    claimC6_aggregate_resolution
      (fun (_ : Unit) (_ : Unit) => [("t", AttributeValue.i64 1)])
      (fun (e : Option AttributeValue) (_ : Unit) => e)
      (fun (_ : Unit) (_ : Unit) => [("t", AttributeValue.i64 1)])
      (fun (e : Option AttributeValue) (_ : Unit) => e)
      (fun (_ : Unit) (_ : BoxError) => [("t", AttributeValue.i64 1)])
      (⟨(), [("c", some (.bool true))]⟩ : Extendable Unit (Option AttributeValue))
      () () "boom" "c" (by decide)⟩

/-- `HashMap::contains_key`. -/
def containsKey {α : Type} (m : List (String × α)) (k : String) : Bool :=
  m.any fun kv => kv.1 == k

/-- A custom-unparseable entry lands in the pending object. -/
theorem classify_pending_mem {Ext : Type} (extParse : JsonValue → Option Ext)
    (input : List (String × JsonValue)) (k : String) (v : JsonValue)
    (hmem : (k, v) ∈ input) (hn : extParse v = none) :
    (k, v) ∈ (classifyEntries extParse input).1 := by
  induction input with
  | nil => cases hmem
  | cons p rest ih =>
    obtain ⟨k₀, v₀⟩ := p
    rcases List.mem_cons.mp hmem with heq | h
    · injection heq with h1 h2
      subst h1; subst h2
      simp [classifyEntries, hn]
    · cases hp : extParse v₀ with
      | some e =>
        simp only [classifyEntries, hp]
        exact ih h
      | none =>
        simp only [classifyEntries, hp]
        exact List.mem_cons_of_mem _ (ih h)

/-- Every pending entry comes from the input and failed the custom parse. -/
theorem classify_pending_sub {Ext : Type} (extParse : JsonValue → Option Ext)
    (input : List (String × JsonValue)) :
    ∀ p ∈ (classifyEntries extParse input).1, p ∈ input ∧ extParse p.2 = none := by
  induction input with
  | nil =>
    intro p hp
    simp [classifyEntries] at hp
  | cons q rest ih =>
    intro p hp
    obtain ⟨k₀, v₀⟩ := q
    cases hq : extParse v₀ with
    | some e =>
      simp only [classifyEntries, hq] at hp
      exact ⟨List.mem_cons_of_mem _ (ih p hp).1, (ih p hp).2⟩
    | none =>
      simp only [classifyEntries, hq] at hp
      rcases List.mem_cons.mp hp with heq | h
      · subst heq
        exact ⟨List.mem_cons_self _ _, hq⟩
      · exact ⟨List.mem_cons_of_mem _ (ih p h).1, (ih p h).2⟩

/-- A custom-parseable entry's key is stored in the custom mapping. -/
theorem classify_custom_mem {Ext : Type} (extParse : JsonValue → Option Ext)
    (input : List (String × JsonValue)) (k : String) (v : JsonValue) (r : Ext)
    (hmem : (k, v) ∈ input) (hs : extParse v = some r) :
    containsKey (classifyEntries extParse input).2 k = true := by
  induction input with
  | nil => cases hmem
  | cons p rest ih =>
    obtain ⟨k₀, v₀⟩ := p
    rcases List.mem_cons.mp hmem with heq | h
    · injection heq with h1 h2
      subst h1; subst h2
      simp [classifyEntries, hs, containsKey]
    · cases hp : extParse v₀ with
      | some e =>
        simp only [classifyEntries, hp, containsKey, List.any_cons]
        rw [containsKey] at ih
        simp [ih h]
      | none =>
        simp only [classifyEntries, hp]
        exact ih h

/-- A key stored in the custom mapping comes from a custom-parseable input
entry. -/
theorem classify_custom_sound {Ext : Type} (extParse : JsonValue → Option Ext)
    (input : List (String × JsonValue)) (k : String)
    (h : containsKey (classifyEntries extParse input).2 k = true) :
    ∃ v r, (k, v) ∈ input ∧ extParse v = some r := by
  induction input with
  | nil => simp [classifyEntries, containsKey] at h
  | cons p rest ih =>
    obtain ⟨k₀, v₀⟩ := p
    cases hp : extParse v₀ with
    | some e =>
      simp only [classifyEntries, hp, containsKey, List.any_cons] at h
      rcases Bool.or_eq_true_iff.mp h with hk | hrest
      · have : k₀ = k := by simpa using hk
        subst this
        exact ⟨v₀, e, List.mem_cons_self _ _, hp⟩
      · obtain ⟨v, r, hm, hr⟩ := ih (by rw [containsKey]; exact hrest)
        exact ⟨v, r, List.mem_cons_of_mem _ hm, hr⟩
    | none =>
      simp only [classifyEntries, hp] at h
      obtain ⟨v, r, hm, hr⟩ := ih h
      exact ⟨v, r, List.mem_cons_of_mem _ hm, hr⟩

/-- In a map with distinct keys, a key determines its value. -/
theorem key_unique {α : Type} (l : List (String × α)) (k : String) (a b : α)
    (hnd : (l.map Prod.fst).Nodup) (ha : (k, a) ∈ l) (hb : (k, b) ∈ l) :
    a = b := by
  induction l with
  | nil => cases ha
  | cons p rest ih =>
    obtain ⟨k₀, v₀⟩ := p
    simp only [List.map_cons, List.nodup_cons] at hnd
    rcases List.mem_cons.mp ha with hea | ha' <;>
      rcases List.mem_cons.mp hb with heb | hb'
    · injection hea with h1 h2
      injection heb with h3 h4
      rw [h2, h4]
    · injection hea with h1 h2
      exfalso
      apply hnd.1
      rw [← h1]
      exact List.mem_map.mpr ⟨(k, b), hb', rfl⟩
    · injection heb with h1 h2
      exfalso
      apply hnd.1
      rw [← h1]
      exact List.mem_map.mpr ⟨(k, a), ha', rfl⟩
    · exact ih hnd.2 ha' hb'

/-- A serde name is recognized exactly when the field table has a setter for
it. -/
theorem sgSetter_isSome_iff (k : String) :
    (sgSetter k).isSome = true ↔ k ∈ sgAttNames := by
  rw [sgSetter, sgAttNames]
  split_ifs with h1 h2 h3
  · simp [h1]
  · simp [h2]
  · simp [h3]
  · simp [h1, h2, h3]

/-- Successful strict parsing of the pending object means every pending key
is a recognized typed-attribute name. -/
theorem sgAttParseAux_ok_keys (pending : List (String × JsonValue)) :
    ∀ (acc : SupergraphAttributes) (a : SupergraphAttributes),
      sgAttParseAux acc pending = .ok a → ∀ p ∈ pending, p.1 ∈ sgAttNames := by
  induction pending with
  | nil =>
    intro acc a _ p hp
    cases hp
  | cons q rest ih =>
    intro acc a hok p hp
    obtain ⟨k₀, v₀⟩ := q
    cases hset : sgSetter k₀ with
    | none => simp [sgAttParseAux, hset] at hok
    | some set =>
      cases hpb : parseOptBool v₀ with
      | none => simp [sgAttParseAux, hset, hpb] at hok
      | some b =>
        simp only [sgAttParseAux, hset, hpb] at hok
        rcases List.mem_cons.mp hp with heq | h
        · have : p.1 = k₀ := by rw [heq]
          rw [this]
          exact (sgSetter_isSome_iff k₀).mp (by rw [hset]; rfl)
        · exact ih _ _ hok p h

/-- The strict parse of a pending object containing an unrecognized key
fails. -/
theorem sgAttParseAux_err (pending : List (String × JsonValue)) :
    ∀ (acc : SupergraphAttributes) (k : String) (v : JsonValue),
      (k, v) ∈ pending → k ∉ sgAttNames →
      ∃ e, sgAttParseAux acc pending = .error e := by
  induction pending with
  | nil =>
    intro acc k v hmem
    cases hmem
  | cons q rest ih =>
    intro acc k v hmem hk
    obtain ⟨k₀, v₀⟩ := q
    cases hset : sgSetter k₀ with
    | none => exact ⟨.unknownField k₀, by simp [sgAttParseAux, hset]⟩
    | some set =>
      cases hpb : parseOptBool v₀ with
      | none => exact ⟨.typeMismatch k₀, by simp [sgAttParseAux, hset, hpb]⟩
      | some b =>
        have hmem' : (k, v) ∈ rest := by
          rcases List.mem_cons.mp hmem with heq | h
          · exfalso
            injection heq with h1 h2
            subst h1
            exact hk ((sgSetter_isSome_iff k).mp (by rw [hset]; rfl))
          · exact h
        obtain ⟨e, he⟩ := ih (set acc b) k v hmem' hk
        exact ⟨e, by simp [sgAttParseAux, hset, hpb, he]⟩

/-- The strict parse of a pending object whose recognized keys all carry
boolean (or null) values, but which contains an unrecognized key, fails
with an unknown-field error naming an unrecognized key of the pending
object. -/
theorem sgAttParseAux_err_unknown (pending : List (String × JsonValue)) :
    ∀ (acc : SupergraphAttributes),
      (∀ p ∈ pending, p.1 ∈ sgAttNames → (parseOptBool p.2).isSome = true) →
      ∀ (k : String) (v : JsonValue), (k, v) ∈ pending → k ∉ sgAttNames →
      ∃ k', sgAttParseAux acc pending = .error (.unknownField k') ∧
        ∃ v', (k', v') ∈ pending ∧ k' ∉ sgAttNames := by
  induction pending with
  | nil =>
    intro acc _ k v hmem
    cases hmem
  | cons q rest ih =>
    intro acc hgood k v hmem hk
    obtain ⟨k₀, v₀⟩ := q
    cases hset : sgSetter k₀ with
    | none =>
      have hk₀ : k₀ ∉ sgAttNames := by
        intro hin
        have := (sgSetter_isSome_iff k₀).mpr hin
        rw [hset] at this
        cases this
      exact ⟨k₀, by simp [sgAttParseAux, hset], v₀, List.mem_cons_self _ _, hk₀⟩
    | some set =>
      have hk₀n : k₀ ∈ sgAttNames := (sgSetter_isSome_iff k₀).mp (by rw [hset]; rfl)
      have hb : (parseOptBool v₀).isSome = true :=
        hgood (k₀, v₀) (List.mem_cons_self _ _) hk₀n
      obtain ⟨b, hb'⟩ := Option.isSome_iff_exists.mp hb
      have hmem' : (k, v) ∈ rest := by
        rcases List.mem_cons.mp hmem with heq | h
        · exfalso
          injection heq with h1 h2
          subst h1
          exact hk hk₀n
        · exact h
      obtain ⟨k', herr, v', hv'm, hk'⟩ :=
        ih (set acc b) (fun p hp => hgood p (List.mem_cons_of_mem _ hp)) k v hmem' hk
      exact ⟨k', by simp [sgAttParseAux, hset, hb', herr],
        v', List.mem_cons_of_mem _ hv'm, hk'⟩

/-- C1 (amended) — Unknown-field rejection: an input entry whose key is not a
recognized typed-attribute name and whose value parses as no custom rule
variant makes the whole deserialization fail; when, additionally, every
entry with a recognized key that reaches the strict typed parse carries a
boolean (or null) value, the failure is an unknown-field error naming such
an unrecognized, custom-unparseable key. -/
theorem claimC1_unknown_field_rejection (input : List (String × JsonValue))
    (k : String) (v : JsonValue) (hmem : (k, v) ∈ input)
    (hext : extParseSg v = none) (hatt : k ∉ sgAttNames) :
    (∃ e, deserializeSupergraph input = .error e) ∧
    ((∀ p ∈ input, p.1 ∈ sgAttNames → extParseSg p.2 = none →
        (parseOptBool p.2).isSome = true) →
      ∃ k', deserializeSupergraph input = .error (.unknownField k') ∧
        ∃ v', (k', v') ∈ input ∧ extParseSg v' = none ∧ k' ∉ sgAttNames) := by
  have hpend : (k, v) ∈ (classifyEntries extParseSg input).1 :=
    classify_pending_mem extParseSg input k v hmem hext
  constructor
  · obtain ⟨e, he⟩ := sgAttParseAux_err _ {} k v hpend hatt
    exact ⟨e, by simp [deserializeSupergraph, extendableDeserialize, sgAttParse, he,
      Except.map]⟩
  · intro hclean
    have hgood : ∀ p ∈ (classifyEntries extParseSg input).1,
        p.1 ∈ sgAttNames → (parseOptBool p.2).isSome = true := by
      intro p hp hn
      have hsub := classify_pending_sub extParseSg input p hp
      exact hclean p hsub.1 hn hsub.2
    obtain ⟨k', herr, v', hv'm, hk'⟩ :=
      sgAttParseAux_err_unknown _ {} hgood k v hpend hatt
    have hsub := classify_pending_sub extParseSg input (k', v') hv'm
    exact ⟨k',
      by simp [deserializeSupergraph, extendableDeserialize, sgAttParse, herr,
        Except.map],
      v', hsub.1, hsub.2, hk'⟩

/-- C1 witness: the misspelled-key example of the spec (`"graphql.operation"`
is neither a typed name nor a custom rule) applied to the rejection
theorem. -/
theorem claimC1_unknown_field_rejection_witness :
    (("graphql.operation", JsonValue.bool true) ∈
      ([("graphql.operation", JsonValue.bool true),
        ("graphql.operation.type", JsonValue.bool true),
        ("custom_1", JsonValue.obj [("operation_name", JsonValue.str "string")])] :
        List (String × JsonValue))) ∧
    extParseSg (JsonValue.bool true) = none ∧
    "graphql.operation" ∉ sgAttNames ∧
    ((∃ e, deserializeSupergraph
        [("graphql.operation", JsonValue.bool true),
         ("graphql.operation.type", JsonValue.bool true),
         ("custom_1", JsonValue.obj [("operation_name", JsonValue.str "string")])] =
        .error e) ∧
    ((∀ p ∈ ([("graphql.operation", JsonValue.bool true),
        ("graphql.operation.type", JsonValue.bool true),
        ("custom_1", JsonValue.obj [("operation_name", JsonValue.str "string")])] :
        List (String × JsonValue)),
        p.1 ∈ sgAttNames → extParseSg p.2 = none →
          (parseOptBool p.2).isSome = true) →
      ∃ k', deserializeSupergraph
        [("graphql.operation", JsonValue.bool true),
         ("graphql.operation.type", JsonValue.bool true),
         ("custom_1", JsonValue.obj [("operation_name", JsonValue.str "string")])] =
        .error (.unknownField k') ∧
        ∃ v', (k', v') ∈ ([("graphql.operation", JsonValue.bool true),
          ("graphql.operation.type", JsonValue.bool true),
          ("custom_1", JsonValue.obj [("operation_name", JsonValue.str "string")])] :
          List (String × JsonValue)) ∧
          extParseSg v' = none ∧ k' ∉ sgAttNames)) :=
  ⟨List.mem_cons_self _ _, rfl, by decide,
    claimC1_unknown_field_rejection _ "graphql.operation" (JsonValue.bool true)
      (List.mem_cons_self _ _) rfl (by decide)⟩

/-- C1 — counterexample to the claim as literally stated: when the object
also contains a recognized typed key with an ill-typed value
(`"graphql.document": "x"`), deserialization still fails, but the reported
error is the type error on the recognized key, not an error naming the
unknown key `"zzz"`. -/
theorem claimC1_counterexample :
    deserializeSupergraph
      [("graphql.document", JsonValue.str "x"), ("zzz", JsonValue.int 5)] =
      .error (.typeMismatch "graphql.document") := rfl

/-- C5 — Disjoint partition: when deserialization succeeds, every input key
is either stored in the custom mapping (its value parsed as a custom rule)
or consumed by the strict typed parse (it is a recognized typed name and
its entry went to the pending object) — never both, never neither. -/
theorem claimC5_disjoint_partition (input : List (String × JsonValue))
    (hnd : (input.map Prod.fst).Nodup)
    (ext : Extendable SupergraphAttributes SupergraphCustomAttribute)
    (hok : deserializeSupergraph input = .ok ext) :
    ∀ p ∈ input,
      ((∃ r, extParseSg p.2 = some r) ∧ containsKey ext.custom p.1 = true ∧
        p.1 ∉ (classifyEntries extParseSg input).1.map Prod.fst) ∨
      (extParseSg p.2 = none ∧ containsKey ext.custom p.1 = false ∧
        p.1 ∈ (classifyEntries extParseSg input).1.map Prod.fst ∧
        p.1 ∈ sgAttNames) := by
  have hcustom : ext.custom = (classifyEntries extParseSg input).2 := by
    simp only [deserializeSupergraph, extendableDeserialize] at hok
    cases hp : sgAttParse (classifyEntries extParseSg input).1 with
    | ok a => rw [hp] at hok; cases hok; rfl
    | error e => rw [hp] at hok; cases hok
  have hattok : ∃ a, sgAttParse (classifyEntries extParseSg input).1 = .ok a := by
    simp only [deserializeSupergraph, extendableDeserialize] at hok
    cases hp : sgAttParse (classifyEntries extParseSg input).1 with
    | ok a => exact ⟨a, rfl⟩
    | error e => rw [hp] at hok; cases hok
  intro p hp
  obtain ⟨kp, vp⟩ := p
  cases he : extParseSg vp with
  | some r =>
    left
    refine ⟨⟨r, rfl⟩, ?_, ?_⟩
    · rw [hcustom]
      exact classify_custom_mem extParseSg input kp vp r hp he
    · intro hmem
      obtain ⟨q, hq, hqk⟩ := List.mem_map.mp hmem
      obtain ⟨hq_in, hq_none⟩ := classify_pending_sub extParseSg input q hq
      obtain ⟨kq, vq⟩ := q
      simp only at hqk
      subst hqk
      have : vp = vq := key_unique input kq vp vq hnd hp hq_in
      subst this
      rw [he] at hq_none
      cases hq_none
  | none =>
    right
    have hpend : (kp, vp) ∈ (classifyEntries extParseSg input).1 :=
      classify_pending_mem extParseSg input kp vp hp he
    refine ⟨rfl, ?_, List.mem_map.mpr ⟨(kp, vp), hpend, rfl⟩, ?_⟩
    · rw [hcustom]
      by_contra hc
      have hc' : containsKey (classifyEntries extParseSg input).2 kp = true := by
        revert hc
        cases containsKey (classifyEntries extParseSg input).2 kp <;> simp
      obtain ⟨v', r', hm', hr'⟩ := classify_custom_sound extParseSg input kp hc'
      have : vp = v' := key_unique input kp vp v' hnd hp hm'
      subst this
      rw [he] at hr'
      cases hr'
    · obtain ⟨a, ha⟩ := hattok
      exact sgAttParseAux_ok_keys _ {} a ha (kp, vp) hpend

/-- C5 witness: the spec's worked example — one typed key and one custom
key — applied to the partition theorem. -/
theorem claimC5_disjoint_partition_witness :
    ((([("graphql.operation.name", JsonValue.bool true),
        ("custom_1", JsonValue.obj [("operation_name", JsonValue.str "string")])] :
        List (String × JsonValue)).map Prod.fst).Nodup) ∧
    deserializeSupergraph
      [("graphql.operation.name", JsonValue.bool true),
       ("custom_1", JsonValue.obj [("operation_name", JsonValue.str "string")])] =
      .ok ⟨{ graphql_operation_name := some true },
        [("custom_1", .operationName .string none none)]⟩ ∧
    (∀ p ∈ ([("graphql.operation.name", JsonValue.bool true),
        ("custom_1", JsonValue.obj [("operation_name", JsonValue.str "string")])] :
        List (String × JsonValue)),
      ((∃ r, extParseSg p.2 = some r) ∧
        containsKey [("custom_1",
          SupergraphCustomAttribute.operationName .string none none)] p.1 = true ∧
        p.1 ∉ (classifyEntries extParseSg
          [("graphql.operation.name", JsonValue.bool true),
           ("custom_1", JsonValue.obj [("operation_name", JsonValue.str "string")])]).1.map
          Prod.fst) ∨
      (extParseSg p.2 = none ∧
        containsKey [("custom_1",
          SupergraphCustomAttribute.operationName .string none none)] p.1 = false ∧
        p.1 ∈ (classifyEntries extParseSg
          [("graphql.operation.name", JsonValue.bool true),
           ("custom_1", JsonValue.obj [("operation_name", JsonValue.str "string")])]).1.map
          Prod.fst ∧
        p.1 ∈ sgAttNames)) :=
  ⟨by decide, rfl,
    claimC5_disjoint_partition
      [("graphql.operation.name", JsonValue.bool true),
       ("custom_1", JsonValue.obj [("operation_name", JsonValue.str "string")])]
      (by decide)
      ⟨{ graphql_operation_name := some true },
        [("custom_1", .operationName .string none none)]⟩
      rfl⟩

/-- C8 witness: idempotence at the blank set and the `Required` level. -/
theorem claimC8_idempotent_population_witness :
    httpCommonDefaultsForLevel (httpCommonDefaultsForLevel {} .required) .required =
      httpCommonDefaultsForLevel {} .required :=
  claimC8_idempotent_population {} .required

/-- C10 witness: the error resolver at an enabled toggle and two distinct
errors. -/
theorem claimC10_on_error_witness :
    httpCommonOnError { error_type := some true } "boom" =
      (if ({ error_type := some true } : HttpCommonAttributes).error_type = some true then
        [("error.type", AttributeValue.i64 500)]
      else []) ∧
    httpCommonOnError { error_type := some true } "boom" =
      httpCommonOnError { error_type := some true } "bam" :=
  claimC10_on_error { error_type := some true } "boom" "bam"

end RouterSpec






